import Mathlib

/-!
Verification of the multi-file variable combination engine of `wrf/util.py`.

The Python source is shallowly embedded: each `def` below translates one
Python function (named in its doc comment), with numpy arrays modelled as a
shape (`List Nat`) plus a row-major flat buffer (`List Int`), Python
exceptions modelled as `Except String`, and the process-global coordinate
cache modelled as an explicit association list threaded through the calls.
-/

set_option autoImplicit false

namespace Wrf

/-! ### Time-Index Locator (`_find_forward` / `_find_reverse`, util.py 729-799)

A source collection is abstracted to the list of per-source time extents
(`extract_dim(wrfnc, "Time")` for each file, in sequence order).  The
locator returns the pair (source index, local time index) identifying the
file and in-file time index the built array is read from, or the
`IndexError` message raised at the end of the walk. -/

/-- Loop body of `_find_forward` (util.py 734-753): walk the extents
accumulating `comboidx`; the first source whose cumulative range contains
`timeidx` is selected with local index `timeidx - comboidx`. -/
def ffAux : List Nat → Nat → Nat → Nat → Option (Nat × Nat)
  | [], _, _, _ => none
  | numtimes :: rest, timeidx, comboidx, srcidx =>
    if timeidx < comboidx + numtimes then some (srcidx, timeidx - comboidx)
    else ffAux rest timeidx (comboidx + numtimes) (srcidx + 1)

/-- `_find_forward` (util.py 729-755) for a non-negative global time index:
either the located (source, local index) pair or the `IndexError` message
of line 755. -/
def find_forward (extents : List Nat) (timeidx : Nat) : Except String (Nat × Nat) :=
  match ffAux extents timeidx 0 0 with
  | some r => Except.ok r
  | none => Except.error ("timeidx " ++ toString timeidx ++ " is out of bounds")

/-- Loop body of `_find_reverse` (util.py 769-790): walk the reversed
extents accumulating `comboidx` against the reversed target; on success the
forward local index is `numtimes - (revtimeidx - comboidx) - 1`
(util.py 781).  The first component is the position in the reversed walk. -/
def frAux : List Nat → Nat → Nat → Nat → Option (Nat × Nat)
  | [], _, _, _ => none
  | numtimes :: rest, revtimeidx, comboidx, srcidx =>
    if revtimeidx < comboidx + numtimes then
      some (srcidx, numtimes - (revtimeidx - comboidx) - 1)
    else frAux rest revtimeidx (comboidx + numtimes) (srcidx + 1)

/-- `_find_reverse` (util.py 758-792) for a negative global time index:
the sequence is reversed (line 760-762), the reversed target is
`-timeidx - 1` (line 765), and the located file at reversed position `j`
is the file at forward position `length - 1 - j`. -/
def find_reverse (extents : List Nat) (timeidx : Int) : Except String (Nat × Nat) :=
  let revtimeidx := (-timeidx - 1).toNat
  match frAux extents.reverse revtimeidx 0 0 with
  | some (revsrc, filetimeidx) => Except.ok (extents.length - 1 - revsrc, filetimeidx)
  | none => Except.error ("timeidx " ++ toString timeidx ++ " is out of bounds")

/-- Cumulative time extent of the first `i` sources (the locator's
`comboidx` after `i` full loop iterations). -/
def prefixSum (extents : List Nat) (i : Nat) : Nat := (extents.take i).sum

theorem prefixSum_zero (extents : List Nat) : prefixSum extents 0 = 0 := rfl

theorem prefixSum_cons_succ (n : Nat) (rest : List Nat) (i : Nat) :
    prefixSum (n :: rest) (i + 1) = n + prefixSum rest i := by
  simp [prefixSum, List.take_succ_cons]

/-- The forward walk, started at accumulated offset `c` and source counter
`s`, selects the first remaining source whose cumulative range contains
`timeidx`, with local index `timeidx` minus the running offset. -/
theorem ffAux_locates (l : List Nat) :
    ∀ (t c s : Nat), c ≤ t → t < c + l.sum →
    ∃ i, i < l.length ∧
      ffAux l t c s = some (s + i, t - (c + prefixSum l i)) ∧
      c + prefixSum l i ≤ t ∧ t < c + prefixSum l (i + 1) ∧
      (∀ j, j < i → ¬ t < c + prefixSum l (j + 1)) := by
  induction l with
  | nil =>
    intro t c s hct hlt
    simp only [List.sum_nil, Nat.add_zero] at hlt
    exact absurd hlt (Nat.not_lt.mpr hct)
  | cons n rest ih =>
    intro t c s hct hlt
    by_cases h : t < c + n
    · refine ⟨0, Nat.succ_pos _, ?_, ?_, ?_, ?_⟩
      · simp [ffAux, h, prefixSum_zero]
      · simpa [prefixSum_zero] using hct
      · simpa [prefixSum_cons_succ, prefixSum_zero] using h
      · intro j hj; exact absurd hj (Nat.not_lt_zero j)
    · have hcn : c + n ≤ t := Nat.not_lt.mp h
      have hlt' : t < (c + n) + rest.sum := by
        simpa [List.sum_cons, Nat.add_assoc] using hlt
      obtain ⟨i, hi, heq, hle, hlt2, hmin⟩ := ih t (c + n) (s + 1) hcn hlt'
      refine ⟨i + 1, Nat.succ_lt_succ hi, ?_, ?_, ?_, ?_⟩
      · have hstep : ffAux (n :: rest) t c s = ffAux rest t (c + n) (s + 1) := by
          simp [ffAux, h]
        rw [hstep, heq, prefixSum_cons_succ]
        have e1 : s + 1 + i = s + (i + 1) := by omega
        have e2 : c + n + prefixSum rest i = c + (n + prefixSum rest i) := by omega
        rw [e1, e2]
      · rw [prefixSum_cons_succ]; omega
      · rw [prefixSum_cons_succ]; omega
      · intro j hj
        cases j with
        | zero => simpa [prefixSum_cons_succ, prefixSum_zero] using h
        | succ j' =>
          have := hmin j' (Nat.lt_of_succ_lt_succ hj)
          rw [prefixSum_cons_succ]
          omega

/-- When the target lies at or beyond the remaining cumulative extent, the
forward walk exhausts the sources without locating it. -/
theorem ffAux_oob (l : List Nat) :
    ∀ (t c s : Nat), c + l.sum ≤ t → ffAux l t c s = none := by
  induction l with
  | nil => intro t c s _; rfl
  | cons n rest ih =>
    intro t c s h
    simp only [List.sum_cons] at h
    have h1 : ¬ t < c + n := by omega
    have h2 : (c + n) + rest.sum ≤ t := by omega
    simp [ffAux, h1, ih t (c + n) (s + 1) h2]

/-- The reverse walk, started at accumulated offset `c` and counter `s`,
selects the first remaining (reversed-order) source whose cumulative range
contains the reversed target, converting the local index back to forward
orientation as `extent - (revtimeidx - comboidx) - 1`. -/
theorem frAux_locates (l : List Nat) :
    ∀ (r c s : Nat), c ≤ r → r < c + l.sum →
    ∃ j, j < l.length ∧
      frAux l r c s = some (s + j, l.getD j 0 - (r - (c + prefixSum l j)) - 1) ∧
      c + prefixSum l j ≤ r ∧ r < c + prefixSum l (j + 1) ∧
      (∀ j', j' < j → ¬ r < c + prefixSum l (j' + 1)) := by
  induction l with
  | nil =>
    intro r c s hcr hlt
    simp only [List.sum_nil, Nat.add_zero] at hlt
    exact absurd hlt (Nat.not_lt.mpr hcr)
  | cons n rest ih =>
    intro r c s hcr hlt
    by_cases h : r < c + n
    · refine ⟨0, Nat.succ_pos _, ?_, ?_, ?_, ?_⟩
      · simp [frAux, h, prefixSum_zero]
      · simpa [prefixSum_zero] using hcr
      · simpa [prefixSum_cons_succ, prefixSum_zero] using h
      · intro j hj; exact absurd hj (Nat.not_lt_zero j)
    · have hcn : c + n ≤ r := Nat.not_lt.mp h
      have hlt' : r < (c + n) + rest.sum := by
        simpa [List.sum_cons, Nat.add_assoc] using hlt
      obtain ⟨j, hj, heq, hle, hlt2, hmin⟩ := ih r (c + n) (s + 1) hcn hlt'
      refine ⟨j + 1, Nat.succ_lt_succ hj, ?_, ?_, ?_, ?_⟩
      · have hstep : frAux (n :: rest) r c s = frAux rest r (c + n) (s + 1) := by
          simp [frAux, h]
        rw [hstep, heq, List.getD_cons_succ, prefixSum_cons_succ]
        have e1 : s + 1 + j = s + (j + 1) := by omega
        have e2 : c + n + prefixSum rest j = c + (n + prefixSum rest j) := by omega
        rw [e1, e2]
      · rw [prefixSum_cons_succ]; omega
      · rw [prefixSum_cons_succ]; omega
      · intro j' hj'
        cases j' with
        | zero => simpa [prefixSum_cons_succ, prefixSum_zero] using h
        | succ j'' =>
          have := hmin j'' (Nat.lt_of_succ_lt_succ hj')
          rw [prefixSum_cons_succ]
          omega

/-- When the reversed target lies at or beyond the remaining cumulative
extent, the reverse walk exhausts the sources without locating it. -/
theorem frAux_oob (l : List Nat) :
    ∀ (r c s : Nat), c + l.sum ≤ r → frAux l r c s = none := by
  induction l with
  | nil => intro r c s _; rfl
  | cons n rest ih =>
    intro r c s h
    simp only [List.sum_cons] at h
    have h1 : ¬ r < c + n := by omega
    have h2 : (c + n) + rest.sum ≤ r := by omega
    simp [frAux, h1, ih r (c + n) (s + 1) h2]

/-- C1: Time-Index Locator correctness.  For every ordered multi-source
collection with per-source time extents `extents` and total `N`: locating a
global index `t` with `0 ≤ t < N` walks sources forward accumulating
extents and returns the first source whose cumulative range contains `t`,
with local index `t` minus the running offset; locating a negative `tneg`
with `-N ≤ tneg < 0` walks the sources in reverse with reversed target
`r = -tneg - 1`, accumulates reversed extents, and converts back to a
forward local index `extent - (r - running_offset) - 1`.  In particular,
for extents `[3, 2, 4]`, global index `4` yields (source 1, local 1) and
global index `-1` yields (source 2, local 3). -/
theorem c1_time_index_locator (extents : List Nat) (t : Nat) (tneg : Int)
    (ht : t < extents.sum)
    (h1 : -(extents.sum : Int) ≤ tneg) (h2 : tneg < 0) :
    (∃ i, i < extents.length ∧
        find_forward extents t = Except.ok (i, t - prefixSum extents i) ∧
        prefixSum extents i ≤ t ∧ t < prefixSum extents (i + 1) ∧
        (∀ j, j < i → ¬ t < prefixSum extents (j + 1))) ∧
    (∃ j, j < extents.length ∧
        prefixSum extents.reverse j ≤ (-tneg - 1).toNat ∧
        (-tneg - 1).toNat < prefixSum extents.reverse (j + 1) ∧
        (∀ j', j' < j → ¬ (-tneg - 1).toNat < prefixSum extents.reverse (j' + 1)) ∧
        find_reverse extents tneg =
          Except.ok (extents.length - 1 - j,
            extents.reverse.getD j 0 -
              ((-tneg - 1).toNat - prefixSum extents.reverse j) - 1)) ∧
    find_forward [3, 2, 4] 4 = Except.ok (1, 1) ∧
    find_reverse [3, 2, 4] (-1) = Except.ok (2, 3) := by
  refine ⟨?_, ?_, by rfl, by rfl⟩
  · obtain ⟨i, hi, heq, hle, hlt, hmin⟩ :=
      ffAux_locates extents t 0 0 (Nat.zero_le t) (by simpa using ht)
    refine ⟨i, hi, ?_, by simpa using hle, by simpa using hlt, ?_⟩
    · simp only [find_forward, heq, Nat.zero_add]
    · intro j hj
      have := hmin j hj
      simpa using this
  · have hsumpos : 0 < extents.sum := by
      by_contra hz
      have : extents.sum = 0 := by omega
      rw [this] at h1
      omega
    have hr : (-tneg - 1).toNat < extents.reverse.sum := by
      rw [List.sum_reverse]
      omega
    obtain ⟨j, hj, heq, hle, hlt, hmin⟩ :=
      frAux_locates extents.reverse ((-tneg - 1).toNat) 0 0
        (Nat.zero_le _) (by simpa using hr)
    refine ⟨j, by simpa using hj, by simpa using hle, by simpa using hlt, ?_, ?_⟩
    · intro j' hj'
      have := hmin j' hj'
      simpa using this
    · simp only [find_reverse, heq, Nat.zero_add]

/-- C1 witness: the locator evaluated on the concrete collection with
extents `[3, 2, 4]` at global indices `4` and `-1`. -/
theorem c1_time_index_locator_witness :
    find_forward [3, 2, 4] 4 = Except.ok (1, 1) ∧
    find_reverse [3, 2, 4] (-1) = Except.ok (2, 3) :=
  ⟨(c1_time_index_locator [3, 2, 4] 4 (-1) (by decide) (by decide) (by decide)).2.2.1,
   (c1_time_index_locator [3, 2, 4] 4 (-1) (by decide) (by decide) (by decide)).2.2.2⟩

/-- C8: Out-of-bounds time index error.  For a collection with total time
extent `N`, locating `t ≥ N` forward, or `tneg < -N` in reverse, fails with
an `IndexError` that reports the offending index, and no located array is
returned in either walk. -/
theorem c8_out_of_bounds_error (extents : List Nat) (t : Nat) (tneg : Int)
    (ht : extents.sum ≤ t) (hneg : tneg < -(extents.sum : Int)) :
    find_forward extents t =
      Except.error ("timeidx " ++ toString t ++ " is out of bounds") ∧
    find_reverse extents tneg =
      Except.error ("timeidx " ++ toString tneg ++ " is out of bounds") := by
  constructor
  · have hnone : ffAux extents t 0 0 = none :=
      ffAux_oob extents t 0 0 (by simpa using ht)
    simp only [find_forward, hnone]
  · have hr : extents.reverse.sum ≤ (-tneg - 1).toNat := by
      rw [List.sum_reverse]
      omega
    have hnone : frAux extents.reverse ((-tneg - 1).toNat) 0 0 = none :=
      frAux_oob extents.reverse _ 0 0 (by simpa using hr)
    simp only [find_reverse, hnone]

/-- C8 witness: locating global index `9` or `-10` in the collection with
extents `[3, 2, 4]` (total 9) fails with the out-of-bounds message. -/
theorem c8_out_of_bounds_error_witness :
    find_forward [3, 2, 4] 9 =
      Except.error ("timeidx " ++ toString (9 : Nat) ++ " is out of bounds") ∧
    find_reverse [3, 2, 4] (-10) =
      Except.error ("timeidx " ++ toString (-10 : Int) ++ " is out of bounds") :=
  c8_out_of_bounds_error [3, 2, 4] 9 (-10) (by decide) (by decide)

/-! ### numpy array model

An array is a shape plus the row-major flat buffer.  numpy assignment
`dest[...] = src` broadcasts the right-hand side onto the destination
slice: shapes are aligned at their trailing ends and every source
dimension must equal the destination dimension or be 1 (a length-1 source
dimension is replicated); otherwise a `ValueError` is raised. -/

/-- A numpy array: shape and row-major flat data. -/
structure Arr where
  shape : List Nat
  flat : List Int
deriving DecidableEq

/-- Broadcast compatibility of reversed (trailing-aligned) shape lists. -/
def bcastRev : List Nat → List Nat → Bool
  | [], _ => true
  | a :: s, [] => (a == 1) && bcastRev s []
  | a :: s, b :: d => (a == 1 || a == b) && bcastRev s d

/-- numpy: `src` may be broadcast onto a destination of shape `dest`. -/
def bcastOK (src dest : List Nat) : Bool := bcastRev src.reverse dest.reverse

/-- All multi-indices of a shape, in row-major order. -/
def allIdx : List Nat → List (List Nat)
  | [] => [[]]
  | n :: rest => ((List.range n).map (fun i => (allIdx rest).map (fun idx => i :: idx))).flatten

/-- Row-major flat offset of a multi-index. -/
def flatIdx (shape idx : List Nat) : Nat :=
  (shape.zip idx).foldl (fun acc p => acc * p.1 + p.2) 0

/-- The source multi-index a destination multi-index reads from under
broadcasting: trailing-aligned, with length-1 source dimensions pinned
to coordinate 0. -/
def bcastSrcIdx (s idx : List Nat) : List Nat :=
  let aligned := List.replicate (s.length - idx.length) 0 ++ idx.drop (idx.length - s.length)
  (aligned.zip s).map (fun p => if p.2 == 1 then 0 else p.1)

/-- The flat buffer obtained by broadcasting `v` onto shape `dest`. -/
def materialize (v : Arr) (dest : List Nat) : List Int :=
  (allIdx dest).map (fun idx => v.flat.getD (flatIdx v.shape (bcastSrcIdx v.shape idx)) 0)

/-- Per-source time extents, `extract_dim(wrfnc, "Time")` for each file
(util.py 416-427): the leading dimension of the per-file variable. -/
def sourceExtents (sources : List Arr) : List Nat := sources.map (fun v => v.shape.headD 0)

/-! ### Cat Combiner (`_cat_files`, util.py 802-995), data path -/

/-- `var[filetimeidx, :]` followed by `result[np.newaxis, :]`
(util.py 749-750 and 787-788): a single-time slice with the length-1 time
axis re-inserted so that no-squeeze works. -/
def sliceNewaxis (v : Arr) (t : Nat) : Arr :=
  ⟨1 :: v.shape.tail, (v.flat.drop (t * v.shape.tail.prod)).take v.shape.tail.prod⟩

/-- `_find_arr_for_time` (util.py 795-799): dispatch a non-negative index
to the forward walk and a negative one to the reverse walk, returning the
located single-time slice. -/
def find_arr_for_time (sources : List Arr) (timeidx : Int) : Except String Arr :=
  if 0 ≤ timeidx then
    match find_forward (sourceExtents sources) timeidx.toNat with
    | Except.ok (i, loc) => Except.ok (sliceNewaxis (sources.getD i ⟨[], []⟩) loc)
    | Except.error e => Except.error e
  else
    match find_reverse (sourceExtents sources) timeidx with
    | Except.ok (i, loc) => Except.ok (sliceNewaxis (sources.getD i ⟨[], []⟩) loc)
    | Except.error e => Except.error e

/-- One iteration of the `_cat_files` all-times copy loop (util.py 899-911):
the numpy assignment `outdata[startidx:endidx, :] = vardata[:]` broadcasts
the source block onto the destination slice of shape
`[numtimes] + non_time_shape` or raises a broadcast `ValueError`. -/
def catStep (tail : List Nat) (acc : Except String (List Int)) (v : Arr) : Except String (List Int) :=
  match acc with
  | Except.error e => Except.error e
  | Except.ok flat =>
    let dest := v.shape.headD 0 :: tail
    if bcastOK v.shape dest then Except.ok (flat ++ materialize v dest)
    else Except.error "could not broadcast input array"

/-- `_cat_files` all-times path (util.py 820-839 and 899-911, 991-995):
an output buffer of shape `[total_time_extent] + non_time_shape` of the
first source is filled source by source at the running time offset. -/
def cat_files_all (sources : List Arr) : Except String Arr :=
  match sources with
  | [] => Except.error "StopIteration"
  | first :: _ =>
    let tail := first.shape.tail
    let total := (sourceExtents sources).sum
    (sources.foldl (catStep tail) (Except.ok [])).map (fun flat => Arr.mk (total :: tail) flat)

/-- `_cat_files` (util.py 802-814): a single-time request delegates to the
Time-Index Locator, an all-times request concatenates every source. -/
def cat_files (sources : List Arr) (timeidx : Option Int) : Except String Arr :=
  match timeidx with
  | some t => find_arr_for_time sources t
  | none => cat_files_all sources

/-! ### Join Combiner (`_join_files`, util.py 1007-1235), data path -/

/-- `_find_max_time_size` (util.py 542-555). -/
def find_max_time_size (sources : List Arr) : Nat :=
  sources.foldl (fun m v => if v.shape.headD 0 ≥ m then v.shape.headD 0 else m) 0

/-- The join output: number of files, time-axis length, non-time shape,
the per-file per-time non-time blocks, and whether the fill mask was
applied (util.py 1161-1162). -/
structure JoinOut where
  numfiles : Nat
  timelen : Nat
  tail : List Nat
  blocks : List (List (List Int))
  masked : Bool
deriving DecidableEq

/-- The per-time blocks of one file's row of the join buffer: the buffer
row starts as fill values (util.py 1041) and
`outdata[file_idx, 0:numtimes, :] = outvar[:]` (util.py 1042, 1122)
overwrites the first `numtimes` blocks, leaving trailing fill blocks. -/
def joinRowData (fill : Int) (tail : List Nat) (maxtimes : Nat) (v : Arr) : List (List Int) :=
  let nt := v.shape.headD 0
  let mat := materialize v (nt :: tail)
  let P := tail.prod
  (List.range maxtimes).map (fun t =>
    if t < nt then (mat.drop (t * P)).take P else List.replicate P fill)

/-- One file's row of the join buffer, or the broadcast `ValueError` of the
numpy assignment when the source's non-time shape is incompatible. -/
def joinRow (fill : Int) (tail : List Nat) (maxtimes : Nat) (v : Arr) : Except String (List (List Int)) :=
  if bcastOK v.shape (v.shape.headD 0 :: tail) then
    Except.ok (joinRowData fill tail maxtimes v)
  else Except.error "could not broadcast input array"

/-- The join copy loop over all files (util.py 1042 and 1108-1122). -/
def joinRows (fill : Int) (tail : List Nat) (maxtimes : Nat) : List Arr → Except String (List (List (List Int)))
  | [] => Except.ok []
  | v :: rest =>
    match joinRow fill tail maxtimes v with
    | Except.error e => Except.error e
    | Except.ok row =>
      match joinRows fill tail maxtimes rest with
      | Except.error e => Except.error e
      | Except.ok rs => Except.ok (row :: rs)

/-- Python indexing of the padded time axis for the post-hoc single-time
slice `outdata[:, timeidx, :]` (util.py 1229-1231). -/
def pyTimeIdx (maxtimes : Nat) (t : Int) : Nat :=
  (if t < 0 then (maxtimes : Int) + t else t).toNat

/-- `_join_files` data path (util.py 1007-1042, 1108-1122, 1158-1162,
1228-1235): an output of shape `[numfiles, maxtimes] + non_time_shape`
pre-filled with the default fill sentinel, each source written at
`[file_idx, 0:numtimes, ...]`; if any file has fewer than `maxtimes` times
the output is flagged as a masked array using the fill sentinel as the
mask value; a single-time request is sliced out afterwards with the
length-1 time axis re-inserted. -/
def join_files (fill : Int) (sources : List Arr) (timeidx : Option Int) : Except String JoinOut :=
  match sources with
  | [] => Except.error "StopIteration"
  | first :: _ =>
    let tail := first.shape.tail
    let maxtimes := find_max_time_size sources
    match joinRows fill tail maxtimes sources with
    | Except.error e => Except.error e
    | Except.ok blocks =>
      let masked := sources.any (fun v => v.shape.headD 0 < maxtimes)
      match timeidx with
      | none => Except.ok ⟨sources.length, maxtimes, tail, blocks, masked⟩
      | some t =>
        Except.ok ⟨sources.length, 1, tail,
          blocks.map (fun row => [row.getD (pyTimeIdx maxtimes t) []]), masked⟩

/-- The scalar at position `[i, t, x]` of the join output (`x` indexes the
flattened non-time block). -/
def joinValueAt (jo : JoinOut) (i t x : Nat) : Int :=
  ((jo.blocks.getD i []).getD t []).getD x 0

/-- `np.ma.masked_values(outdata, Constants.DEFAULT_FILL)` (util.py 1162)
masks exactly the scalars equal to the fill sentinel, and only when the
mask was applied at all. -/
def maskedAt (fill : Int) (jo : JoinOut) (i t x : Nat) : Bool :=
  jo.masked && (joinValueAt jo i t x == fill)

/-- The join output as a plain array. -/
def joinToArr (jo : JoinOut) : Arr :=
  ⟨jo.numfiles :: jo.timelen :: jo.tail, (jo.blocks.map List.flatten).flatten⟩

/-! ### Squeeze, facade and Dict Combiner -/

/-- `ndarray.squeeze()`: remove all length-1 axes, keep the data. -/
def squeezeArr (a : Arr) : Arr :=
  ⟨a.shape.filter (fun n => n != 1), a.flat⟩

/-- The method dispatch of `combine_files` (util.py 1245-1253): "cat" and
"join" (case-insensitive) select their combiner, anything else raises the
invalid-method `ValueError`. -/
def combine_files_dispatch (fill : Int) (sources : List Arr) (method : String)
    (timeidx : Option Int) : Except String Arr :=
  if method.toLower == "cat" then cat_files sources timeidx
  else if method.toLower == "join" then (join_files fill sources timeidx).map joinToArr
  else Except.error "method must be 'cat' or 'join'"

/-- `combine_files` (util.py 1237-1255) for ordered collections: dispatch
on the method string, then `outarr.squeeze() if squeeze else outarr`
(line 1255). -/
def combine_files (fill : Int) (sources : List Arr) (method : String)
    (timeidx : Option Int) (squeeze : Bool) : Except String Arr :=
  (combine_files_dispatch fill sources method timeidx).map
    (fun a => if squeeze then squeezeArr a else a)

/-- `_extract_var` single-file data path (util.py 1288-1292 and 1298): a
single-time request re-inserts a length-1 leading time axis
(`result[np.newaxis, :]`, so that no-squeeze works), then
`result.squeeze() if squeeze else result`. -/
def extract_var_single (var : Arr) (timeidx : Option Nat) (squeeze : Bool) : Arr :=
  let result :=
    match timeidx with
    | some t => sliceNewaxis var t
    | none => var
  if squeeze then squeezeArr result else result

/-- `_combine_dict` data path (util.py 429-472): the first key's array
establishes the output shape `[numkeys] + first.shape`; every later key's
array must have exactly the first one's shape (line 468-470) or a
`ValueError` is raised; rows are filled in key-iteration order. -/
def combine_dict (entries : List (String × Arr)) : Except String Arr :=
  match entries with
  | [] => Except.error "StopIteration"
  | (_, first) :: rest =>
    let step : Except String (List Int) → String × Arr → Except String (List Int) := fun acc e =>
      match acc with
      | Except.error m => Except.error m
      | Except.ok flat =>
        if e.2.shape == first.shape then Except.ok (flat ++ e.2.flat)
        else Except.error "data sequences must have the same size for all dictionary keys"
    (rest.foldl step (Except.ok first.flat)).map
      (fun flat => Arr.mk (entries.length :: first.shape) flat)

/-- The flat data of slice `a[i]` along the leftmost axis. -/
def sliceAt (a : Arr) (i : Nat) : List Int :=
  (a.flat.drop (i * a.shape.tail.prod)).take a.shape.tail.prod

/-- C5: Dict Combiner contract.  Combining a mapping `{"a": X, "b": Y}`
whose entries combine to shape-(5,5) arrays produces a shape-(2,5,5) array
whose index 0 is `X` and index 1 is `Y` (new key axis leftmost, entries in
key-iteration order); an entry of any other shape fails with the
size-mismatch `ValueError`. -/
theorem c5_dict_combiner (X Y : Arr)
    (hX : X.shape = [5, 5]) (hY : Y.shape = [5, 5])
    (hXl : X.flat.length = 25) (hYl : Y.flat.length = 25) :
    (∃ R, combine_dict [("a", X), ("b", Y)] = Except.ok R ∧
        R.shape = [2, 5, 5] ∧ sliceAt R 0 = X.flat ∧ sliceAt R 1 = Y.flat) ∧
    (∀ Z : Arr, Z.shape ≠ [5, 5] →
        combine_dict [("a", X), ("b", Z)] =
          Except.error "data sequences must have the same size for all dictionary keys") := by
  constructor
  · refine ⟨Arr.mk [2, 5, 5] (X.flat ++ Y.flat), ?_, rfl, ?_, ?_⟩
    · simp [combine_dict, hX, hY, Except.map]
    · show (((X.flat ++ Y.flat).drop (0 * ([2, 5, 5] : List Nat).tail.prod)).take
          ([2, 5, 5] : List Nat).tail.prod) = X.flat
      simp only [Nat.zero_mul, List.drop_zero]
      exact List.take_left' (by simpa using hXl)
    · show (((X.flat ++ Y.flat).drop (1 * ([2, 5, 5] : List Nat).tail.prod)).take
          ([2, 5, 5] : List Nat).tail.prod) = Y.flat
      simp only [Nat.one_mul]
      rw [List.drop_left' (by simpa using hXl)]
      rw [show (([2, 5, 5] : List Nat).tail.prod) = 25 from rfl, ← hYl]
      simp
  · intro Z hZ
    simp [combine_dict, hX, hZ, Except.map]

/-- C5 witness: the Dict Combiner evaluated on two concrete shape-(5,5)
arrays, and on a mismatched second entry. -/
theorem c5_dict_combiner_witness :
    (∃ R, combine_dict [("a", Arr.mk [5, 5] (List.replicate 25 1)),
                        ("b", Arr.mk [5, 5] (List.replicate 25 2))] = Except.ok R ∧
        R.shape = [2, 5, 5] ∧
        sliceAt R 0 = (Arr.mk [5, 5] (List.replicate 25 1)).flat ∧
        sliceAt R 1 = (Arr.mk [5, 5] (List.replicate 25 2)).flat) ∧
    (∀ Z : Arr, Z.shape ≠ [5, 5] →
        combine_dict [("a", Arr.mk [5, 5] (List.replicate 25 1)), ("b", Z)] =
          Except.error "data sequences must have the same size for all dictionary keys") :=
  c5_dict_combiner _ _ rfl rfl (by simp) (by simp)

/-- Error starting values absorb the `_cat_files` copy fold. -/
theorem catStep_foldl_error (tail : List Nat) (e : String) (l : List Arr) :
    l.foldl (catStep tail) (Except.error e) = Except.error e := by
  induction l with
  | nil => rfl
  | cons v rest ih => simpa [catStep] using ih

/-- If every remaining source broadcasts onto its destination slice, the
copy fold succeeds. -/
theorem catStep_foldl_ok (tail : List Nat) (l : List Arr) :
    ∀ f0 : List Int, (∀ v ∈ l, bcastOK v.shape (v.shape.headD 0 :: tail) = true) →
    ∃ flat, l.foldl (catStep tail) (Except.ok f0) = Except.ok flat := by
  induction l with
  | nil => intro f0 _; exact ⟨f0, rfl⟩
  | cons v rest ih =>
    intro f0 h
    have hv : bcastOK v.shape (v.shape.head?.getD 0 :: tail) = true := by
      simpa using h v (List.mem_cons_self v rest)
    have hstep : catStep tail (Except.ok f0) v = Except.ok (f0 ++ materialize v (v.shape.headD 0 :: tail)) := by
      simp [catStep, hv]
    obtain ⟨flat, hflat⟩ := ih (f0 ++ materialize v (v.shape.headD 0 :: tail))
      (fun w hw => h w (List.mem_cons_of_mem v hw))
    exact ⟨flat, by simpa [List.foldl_cons, hstep] using hflat⟩

/-- If some remaining source does not broadcast onto its destination
slice, the copy fold raises the broadcast `ValueError`. -/
theorem catStep_foldl_bad (tail : List Nat) (l : List Arr) :
    ∀ f0 : List Int, (∃ v ∈ l, bcastOK v.shape (v.shape.headD 0 :: tail) = false) →
    l.foldl (catStep tail) (Except.ok f0) = Except.error "could not broadcast input array" := by
  induction l with
  | nil => intro f0 h; simp at h
  | cons v rest ih =>
    intro f0 h
    by_cases hv : bcastOK v.shape (v.shape.headD 0 :: tail) = true
    · have hv2 : bcastOK v.shape (v.shape.head?.getD 0 :: tail) = true := by
        simpa using hv
      have hstep : catStep tail (Except.ok f0) v = Except.ok (f0 ++ materialize v (v.shape.headD 0 :: tail)) := by
        simp [catStep, hv2]
      obtain ⟨w, hw, hwbad⟩ := h
      have hwrest : w ∈ rest := by
        rcases List.mem_cons.mp hw with h1 | h1
        · subst h1; rw [hv] at hwbad; cases hwbad
        · exact h1
      rw [List.foldl_cons, hstep]
      exact ih _ ⟨w, hwrest, hwbad⟩
    · have hv' : bcastOK v.shape (v.shape.head?.getD 0 :: tail) = false := by
        simpa using hv
      have hstep : catStep tail (Except.ok f0) v = Except.error "could not broadcast input array" := by
        simp [catStep, hv']
      rw [List.foldl_cons, hstep]
      exact catStep_foldl_error tail _ rest

/-- A source broadcasts onto a destination slice of its own shape. -/
theorem bcastRev_self (s : List Nat) : bcastRev s s = true := by
  induction s with
  | nil => rfl
  | cons a rest ih => simp [bcastRev, ih]

/-- The first source always broadcasts onto the slice whose shape was
taken from the first source itself. -/
theorem bcastOK_first (first : Arr) :
    bcastOK first.shape (first.shape.headD 0 :: first.shape.tail) = true := by
  cases h : first.shape with
  | nil => simp [bcastOK, bcastRev, h]
  | cons a rest => simp only [bcastOK, h, List.headD_cons, List.tail_cons]; exact bcastRev_self _

/-- C7 counterexample: a second source whose non-time shape `[1]` differs
from the first source's `[2]` does NOT make the all-times "cat"
combination fail; numpy silently broadcasts the length-1 dimension and an
output array with replicated values is returned. -/
theorem c7_cat_shape_error_counterexample :
    cat_files_all [Arr.mk [1, 2] [10, 20], Arr.mk [1, 1] [30]] =
      Except.ok (Arr.mk [2, 2] [10, 20, 30, 30]) ∧
    (Arr.mk [1, 1] ([30] : List Int)).shape.tail ≠ (Arr.mk [1, 2] ([10, 20] : List Int)).shape.tail :=
  ⟨rfl, by decide⟩

/-- C7 (amended): within one "cat" all-times combination, a source whose
shape is not numpy-broadcast-compatible with the destination slice
`[own_time_extent] + first_non_time_shape` makes the combination fail
immediately with the broadcast `ValueError` — no partial or reshaped
output is returned; when every source is broadcast-compatible (which
includes non-time shapes that differ from the first source's only in
dimensions of length 1) an output array of shape
`[total_time_extent] + first_non_time_shape` is returned, mismatched
length-1 dimensions being silently replicated rather than rejected. -/
theorem c7_cat_shape_error (first : Arr) (rest : List Arr) :
    ((∃ v ∈ rest, bcastOK v.shape (v.shape.headD 0 :: first.shape.tail) = false) →
      cat_files_all (first :: rest) = Except.error "could not broadcast input array" ∧
      ∀ a, cat_files_all (first :: rest) ≠ Except.ok a) ∧
    ((∀ v ∈ rest, bcastOK v.shape (v.shape.headD 0 :: first.shape.tail) = true) →
      ∃ a, cat_files_all (first :: rest) = Except.ok a ∧
        a.shape = (sourceExtents (first :: rest)).sum :: first.shape.tail) := by
  constructor
  · intro h
    have hfold : (first :: rest).foldl (catStep first.shape.tail) (Except.ok []) =
        Except.error "could not broadcast input array" := by
      rw [List.foldl_cons]
      have hb : bcastOK first.shape (first.shape.head?.getD 0 :: first.shape.tail) = true := by
        simpa using bcastOK_first first
      have hstep : catStep first.shape.tail (Except.ok []) first =
          Except.ok ([] ++ materialize first (first.shape.headD 0 :: first.shape.tail)) := by
        simp [catStep, hb]
      rw [hstep]
      exact catStep_foldl_bad first.shape.tail rest _ h
    have hres : cat_files_all (first :: rest) = Except.error "could not broadcast input array" := by
      simp [cat_files_all, hfold, Except.map]
    exact ⟨hres, fun a ha => by rw [hres] at ha; cases ha⟩
  · intro h
    have hall : ∀ v ∈ (first :: rest), bcastOK v.shape (v.shape.headD 0 :: first.shape.tail) = true := by
      intro v hv
      rcases List.mem_cons.mp hv with h1 | h1
      · subst h1; exact bcastOK_first v
      · exact h v h1
    obtain ⟨flat, hflat⟩ := catStep_foldl_ok first.shape.tail (first :: rest) [] hall
    exact ⟨Arr.mk ((sourceExtents (first :: rest)).sum :: first.shape.tail) flat,
      by simp [cat_files_all, hflat, Except.map], rfl⟩

/-- C7 witness: the amended behaviour evaluated concretely — a
broadcast-incompatible source (non-time shape `[3]` vs `[2]`) errors, and
a compatible collection succeeds. -/
theorem c7_cat_shape_error_witness :
    (cat_files_all [Arr.mk [1, 2] [10, 20], Arr.mk [1, 3] [1, 2, 3]] =
        Except.error "could not broadcast input array" ∧
      ∀ a, cat_files_all [Arr.mk [1, 2] [10, 20], Arr.mk [1, 3] [1, 2, 3]] ≠ Except.ok a) ∧
    (∃ a, cat_files_all [Arr.mk [1, 2] [10, 20], Arr.mk [2, 2] [1, 2, 3, 4]] = Except.ok a ∧
      a.shape = (sourceExtents [Arr.mk [1, 2] [10, 20], Arr.mk [2, 2] [1, 2, 3, 4]]).sum ::
        (Arr.mk [1, 2] ([10, 20] : List Int)).shape.tail) :=
  ⟨(c7_cat_shape_error (Arr.mk [1, 2] [10, 20]) [Arr.mk [1, 3] [1, 2, 3]]).1 (by decide),
   (c7_cat_shape_error (Arr.mk [1, 2] [10, 20]) [Arr.mk [2, 2] [1, 2, 3, 4]]).2 (by decide)⟩

/-- C6: Squeeze semantics.  For every combination result, squeeze=true
removes exactly the length-1 axes of the pre-squeeze result and no others
(the data is untouched, no length-1 axis survives, every other axis length
keeps its multiplicity and order); squeeze=false returns the pre-squeeze
result unchanged, including the synthetic length-1 leading time axis
re-inserted for single-time-index requests (a length-1 time axis in the
"join" output and a length-1 leading axis in the "cat" and single-file
outputs). -/
theorem c6_squeeze_semantics (a : Arr) (fill : Int) (sources : List Arr)
    (method : String) (timeidx : Option Int) (var : Arr) (tn : Nat) :
    ((squeezeArr a).shape = a.shape.filter (fun n => n != 1) ∧
      (squeezeArr a).flat = a.flat ∧
      (squeezeArr a).shape.count 1 = 0 ∧
      (∀ n, n ≠ 1 → (squeezeArr a).shape.count n = a.shape.count n) ∧
      (squeezeArr a).shape.Sublist a.shape) ∧
    combine_files fill sources method timeidx true =
      (combine_files fill sources method timeidx false).map squeezeArr ∧
    combine_files fill sources method timeidx false =
      combine_files_dispatch fill sources method timeidx ∧
    (extract_var_single var (some tn) false).shape = 1 :: var.shape.tail ∧
    extract_var_single var none false = var ∧
    extract_var_single var (some tn) true =
      squeezeArr (extract_var_single var (some tn) false) ∧
    (∀ t : Int, ∀ jo : JoinOut,
      join_files fill sources (some t) = Except.ok jo → jo.timelen = 1) ∧
    (∀ t : Int, ∀ i loc : Nat, 0 ≤ t →
      find_forward (sourceExtents sources) t.toNat = Except.ok (i, loc) →
      ∃ b, cat_files sources (some t) = Except.ok b ∧ b.shape.headD 0 = 1) := by
  refine ⟨⟨rfl, rfl, ?_, ?_, List.filter_sublist a.shape⟩, ?_, ?_, rfl, rfl, rfl, ?_, ?_⟩
  · refine List.count_eq_zero.mpr ?_
    intro hmem
    have := List.of_mem_filter hmem
    simp at this
  · intro n hn
    exact List.count_filter (by simpa using hn)
  · unfold combine_files
    cases combine_files_dispatch fill sources method timeidx <;> simp [Except.map]
  · unfold combine_files
    cases combine_files_dispatch fill sources method timeidx <;> simp [Except.map]
  · intro t jo hjo
    cases sources with
    | nil => simp [join_files] at hjo
    | cons first rest =>
      simp only [join_files] at hjo
      cases hrows : joinRows fill first.shape.tail
          (find_max_time_size (first :: rest)) (first :: rest) with
      | error e => rw [hrows] at hjo; cases hjo
      | ok blocks =>
        rw [hrows] at hjo
        cases hjo
        rfl
  · intro t i loc ht hfwd
    refine ⟨sliceNewaxis (sources.getD i ⟨[], []⟩) loc, ?_, rfl⟩
    simp only [cat_files, find_arr_for_time, if_pos ht, hfwd]

/-- C6 witness: squeeze evaluated on a concrete shape `[1, 2, 1, 3]`
array, the squeeze flag relation on a concrete "cat" collection, and the
synthetic length-1 time axis of concrete single-time "join" and "cat"
requests. -/
theorem c6_squeeze_semantics_witness :
    (squeezeArr (Arr.mk [1, 2, 1, 3] [])).shape =
      ([1, 2, 1, 3] : List Nat).filter (fun n => n != 1) ∧
    (squeezeArr (Arr.mk [1, 2, 1, 3] [])).shape.count 2 =
      (Arr.mk [1, 2, 1, 3] ([] : List Int)).shape.count 2 ∧
    combine_files 0 [Arr.mk [2, 2] [1, 2, 3, 4]] "cat" none true =
      (combine_files 0 [Arr.mk [2, 2] [1, 2, 3, 4]] "cat" none false).map squeezeArr ∧
    (JoinOut.mk 1 1 [] [[[7]]] false).timelen = 1 ∧
    (∃ b, cat_files [Arr.mk [2, 2] [1, 2, 3, 4]] (some 1) = Except.ok b ∧
      b.shape.headD 0 = 1) :=
  ⟨(c6_squeeze_semantics (Arr.mk [1, 2, 1, 3] []) 0 [] "cat" none (Arr.mk [] []) 0).1.1,
   (c6_squeeze_semantics (Arr.mk [1, 2, 1, 3] []) 0 [] "cat" none (Arr.mk [] []) 0).1.2.2.2.1
     2 (by decide),
   (c6_squeeze_semantics (Arr.mk [1, 2, 1, 3] []) 0 [Arr.mk [2, 2] [1, 2, 3, 4]] "cat" none
     (Arr.mk [] []) 0).2.1,
   (c6_squeeze_semantics (Arr.mk [1, 2, 1, 3] []) 0 [Arr.mk [1] [7]] "join" none
     (Arr.mk [] []) 0).2.2.2.2.2.2.1 0 (JoinOut.mk 1 1 [] [[[7]]] false) rfl,
   (c6_squeeze_semantics (Arr.mk [1, 2, 1, 3] []) 0 [Arr.mk [2, 2] [1, 2, 3, 4]] "cat" none
     (Arr.mk [] []) 0).2.2.2.2.2.2.2 1 0 1 (by decide) rfl⟩

/-! ### Helper lemmas for the Join Combiner -/

theorem getD_of_lt {α : Type} (l : List α) (i : Nat) (d : α) (h : i < l.length) :
    l.getD i d = l[i] := by
  simp [List.getD_eq_getElem?_getD, List.getElem?_eq_getElem h]

theorem getD_map_of_lt {α β : Type} (f : α → β) (l : List α) (i : Nat) (d : β) (e : α)
    (h : i < l.length) : (l.map f).getD i d = f (l.getD i e) := by
  rw [getD_of_lt _ _ _ (by simpa using h), getD_of_lt _ _ _ h, List.getElem_map]

/-- The `_find_max_time_size` fold bounds every extent from above. -/
theorem find_max_fold_ub (l : List Arr) :
    ∀ m : Nat,
      m ≤ l.foldl (fun m v => if v.shape.headD 0 ≥ m then v.shape.headD 0 else m) m ∧
      ∀ v ∈ l, v.shape.headD 0 ≤
        l.foldl (fun m v => if v.shape.headD 0 ≥ m then v.shape.headD 0 else m) m := by
  induction l with
  | nil => intro m; exact ⟨Nat.le_refl m, by intro v hv; cases hv⟩
  | cons w rest ih =>
    intro m
    have hg : m ≤ (if w.shape.headD 0 ≥ m then w.shape.headD 0 else m) ∧
        w.shape.headD 0 ≤ (if w.shape.headD 0 ≥ m then w.shape.headD 0 else m) := by
      by_cases h : w.shape.headD 0 ≥ m
      · rw [if_pos h]; exact ⟨h, Nat.le_refl _⟩
      · rw [if_neg h]; exact ⟨Nat.le_refl m, by omega⟩
    obtain ⟨ih1, ih2⟩ := ih (if w.shape.headD 0 ≥ m then w.shape.headD 0 else m)
    refine ⟨Nat.le_trans hg.1 ih1, ?_⟩
    intro v hv
    rcases List.mem_cons.mp hv with h1 | h1
    · subst h1; exact Nat.le_trans hg.2 ih1
    · exact ih2 v h1

/-- The `_find_max_time_size` fold result is the start value or one of the
extents. -/
theorem find_max_fold_mem (l : List Arr) :
    ∀ m : Nat,
      l.foldl (fun m v => if v.shape.headD 0 ≥ m then v.shape.headD 0 else m) m = m ∨
      ∃ v ∈ l, l.foldl (fun m v => if v.shape.headD 0 ≥ m then v.shape.headD 0 else m) m =
        v.shape.headD 0 := by
  induction l with
  | nil => intro m; exact Or.inl rfl
  | cons w rest ih =>
    intro m
    rcases ih (if w.shape.headD 0 ≥ m then w.shape.headD 0 else m) with h | ⟨v, hv, he⟩
    · by_cases hc : w.shape.headD 0 ≥ m
      · refine Or.inr ⟨w, List.mem_cons_self w rest, ?_⟩
        rw [List.foldl_cons, h, if_pos hc]
      · refine Or.inl ?_
        rw [List.foldl_cons, h, if_neg hc]
    · exact Or.inr ⟨v, List.mem_cons_of_mem w hv, by rw [List.foldl_cons]; exact he⟩

/-- A shape broadcasts onto itself. -/
theorem bcastOK_self (s : List Nat) : bcastOK s s = true := bcastRev_self s.reverse

theorem find_max_time_size_eq (l : List Arr) :
    find_max_time_size l =
      l.foldl (fun m v => if v.shape.headD 0 ≥ m then v.shape.headD 0 else m) 0 := rfl

/-- When every source broadcasts, the join copy loop produces one row of
blocks per source, in order. -/
theorem joinRows_ok (fill : Int) (tail : List Nat) (maxtimes : Nat) (l : List Arr)
    (h : ∀ v ∈ l, bcastOK v.shape (v.shape.headD 0 :: tail) = true) :
    joinRows fill tail maxtimes l = Except.ok (l.map (joinRowData fill tail maxtimes)) := by
  induction l with
  | nil => rfl
  | cons v rest ih =>
    have hv := h v (List.mem_cons_self v rest)
    have hrow : joinRow fill tail maxtimes v = Except.ok (joinRowData fill tail maxtimes v) := by
      simp only [joinRow, if_pos hv]
    have hrest := ih (fun w hw => h w (List.mem_cons_of_mem v hw))
    simp only [joinRows, hrow, hrest, List.map_cons]

/-- The block of one row at an in-range padded time index. -/
theorem joinRowData_getD (fill : Int) (tail : List Nat) (maxtimes : Nat) (v : Arr)
    (t : Nat) (ht : t < maxtimes) :
    (joinRowData fill tail maxtimes v).getD t [] =
      (if t < v.shape.headD 0 then
        ((materialize v (v.shape.headD 0 :: tail)).drop (t * tail.prod)).take tail.prod
      else List.replicate tail.prod fill) := by
  unfold joinRowData
  rw [getD_map_of_lt _ _ _ _ 0 (by simpa using ht), getD_of_lt _ _ _ (by simpa using ht)]
  simp

/-- C2 counterexample to the claim as stated: with unequal extents `[1]`
and `[2]`, the in-extent position `[0, 0, ...]` (time 0 of source 0, which
is strictly inside source 0's extent) is nonetheless masked, because its
stored data value happens to equal the fill sentinel and
`np.ma.masked_values` masks by value equality. -/
theorem c2_join_masking_counterexample :
    (join_files 0 [Arr.mk [1] [0], Arr.mk [2] [5, 6]] none).map
        (fun jo => maskedAt 0 jo 0 0 0) = Except.ok true ∧
    (0 : Nat) < (Arr.mk [1] ([0] : List Int)).shape.headD 0 ∧
    (Arr.mk [1] ([0] : List Int)).shape.headD 0 ≠
      (Arr.mk [2] ([5, 6] : List Int)).shape.headD 0 :=
  ⟨rfl, by decide, by decide⟩

/-- C2 (amended): Join masking.  For a multi-source "join" combination of
rectangular sources: the longest source determines the output time size;
if all sources have equal time extents no position is masked; if extents
differ, the output is flagged masked with the default fill sentinel as the
mask value, every position beyond a source's own extent is masked, and the
masked positions are exactly those holding the fill-sentinel value — an
in-extent data value equal to the sentinel is masked as well. -/
theorem c2_join_masking (fill : Int) (first : Arr) (rest : List Arr)
    (hrect : ∀ v ∈ first :: rest, v.shape = v.shape.headD 0 :: first.shape.tail) :
    ∃ jo, join_files fill (first :: rest) none = Except.ok jo ∧
      jo.numfiles = (first :: rest).length ∧
      jo.timelen = find_max_time_size (first :: rest) ∧
      (∀ v ∈ first :: rest, v.shape.headD 0 ≤ jo.timelen) ∧
      (∃ v ∈ first :: rest, jo.timelen = v.shape.headD 0) ∧
      ((∀ v ∈ first :: rest, v.shape.headD 0 = first.shape.headD 0) →
        jo.masked = false ∧ ∀ i t x, maskedAt fill jo i t x = false) ∧
      ((∃ v ∈ first :: rest, ∃ w ∈ first :: rest, v.shape.headD 0 ≠ w.shape.headD 0) →
        jo.masked = true ∧
        (∀ i t x, i < jo.numfiles → t < jo.timelen → x < first.shape.tail.prod →
          ((first :: rest).getD i ⟨[], []⟩).shape.headD 0 ≤ t →
          maskedAt fill jo i t x = true) ∧
        (∀ i t x, maskedAt fill jo i t x = true ↔ joinValueAt jo i t x = fill)) := by
  have hbc : ∀ v ∈ first :: rest, bcastOK v.shape (v.shape.headD 0 :: first.shape.tail) = true := by
    intro v hv
    rw [← hrect v hv]
    exact bcastOK_self v.shape
  have hrows := joinRows_ok fill first.shape.tail (find_max_time_size (first :: rest))
    (first :: rest) hbc
  have hub := (find_max_fold_ub (first :: rest) 0).2
  have hmem := find_max_fold_mem (first :: rest) 0
  refine ⟨JoinOut.mk (first :: rest).length (find_max_time_size (first :: rest))
      first.shape.tail
      ((first :: rest).map (joinRowData fill first.shape.tail (find_max_time_size (first :: rest))))
      ((first :: rest).any (fun v => v.shape.headD 0 < find_max_time_size (first :: rest))),
    ?_, rfl, rfl, ?_, ?_, ?_, ?_⟩
  · simp only [join_files, hrows]
  · intro v hv
    show v.shape.headD 0 ≤ find_max_time_size (first :: rest)
    rw [find_max_time_size_eq]
    exact hub v hv
  · rcases hmem with h | ⟨v, hv, he⟩
    · refine ⟨first, List.mem_cons_self first rest, ?_⟩
      have h1 : first.shape.headD 0 ≤ 0 := by
        have h2 := hub first (List.mem_cons_self first rest)
        rw [h] at h2
        exact h2
      show find_max_time_size (first :: rest) = first.shape.headD 0
      rw [find_max_time_size_eq, h]
      omega
    · refine ⟨v, hv, ?_⟩
      show find_max_time_size (first :: rest) = v.shape.headD 0
      rw [find_max_time_size_eq, he]
  · intro hall
    have hmax : find_max_time_size (first :: rest) ≤ first.shape.headD 0 := by
      rw [find_max_time_size_eq]
      rcases hmem with h | ⟨v, hv, he⟩
      · rw [h]; exact Nat.zero_le _
      · rw [he, hall v hv]
    have hany : ((first :: rest).any
        (fun v => v.shape.headD 0 < find_max_time_size (first :: rest))) = false := by
      rw [List.any_eq_false]
      intro v hv
      simp only [decide_eq_true_eq]
      rw [hall v hv]
      omega
    refine ⟨hany, ?_⟩
    intro i t x
    show (((first :: rest).any
        (fun v => v.shape.headD 0 < find_max_time_size (first :: rest))) &&
      _) = false
    rw [hany]
    rfl
  · intro hdiff
    obtain ⟨v, hv, w, hw, hne⟩ := hdiff
    have hvle : v.shape.headD 0 ≤ find_max_time_size (first :: rest) := by
      rw [find_max_time_size_eq]; exact hub v hv
    have hwle : w.shape.headD 0 ≤ find_max_time_size (first :: rest) := by
      rw [find_max_time_size_eq]; exact hub w hw
    have hsmall : ∃ u ∈ first :: rest,
        u.shape.headD 0 < find_max_time_size (first :: rest) := by
      rcases Nat.lt_or_ge (v.shape.headD 0) (w.shape.headD 0) with h | h
      · exact ⟨v, hv, Nat.lt_of_lt_of_le h hwle⟩
      · exact ⟨w, hw, Nat.lt_of_lt_of_le (by omega) hvle⟩
    have hany : ((first :: rest).any
        (fun v => v.shape.headD 0 < find_max_time_size (first :: rest))) = true := by
      rw [List.any_eq_true]
      obtain ⟨u, hu, hlt⟩ := hsmall
      exact ⟨u, hu, by simpa using hlt⟩
    refine ⟨hany, ?_, ?_⟩
    · intro i t x hi ht hx hext
      have hblock : (((first :: rest).map
            (joinRowData fill first.shape.tail (find_max_time_size (first :: rest)))).getD i []) =
          joinRowData fill first.shape.tail (find_max_time_size (first :: rest))
            ((first :: rest).getD i ⟨[], []⟩) :=
        getD_map_of_lt _ _ _ _ _ (by simpa using hi)
      have hrow := joinRowData_getD fill first.shape.tail (find_max_time_size (first :: rest))
        ((first :: rest).getD i ⟨[], []⟩) t (by simpa using ht)
      have hnotin : ¬ t < ((first :: rest).getD i ⟨[], []⟩).shape.headD 0 := by omega
      rw [if_neg hnotin] at hrow
      have hval : ((((first :: rest).map
            (joinRowData fill first.shape.tail (find_max_time_size (first :: rest)))).getD i
              []).getD t []).getD x 0 = fill := by
        rw [hblock, hrow, getD_of_lt _ _ _ (by simpa using hx), List.getElem_replicate]
      show (((first :: rest).any
          (fun v => v.shape.headD 0 < find_max_time_size (first :: rest))) &&
        (_ == fill)) = true
      rw [hany]
      simp only [Bool.true_and, beq_iff_eq]
      exact hval
    · intro i t x
      constructor
      · intro hmk
        have h3 := hmk
        simp only [maskedAt] at h3
        exact beq_iff_eq.mp ((Bool.and_eq_true _ _).mp h3).2
      · intro hval
        simp only [maskedAt]
        refine (Bool.and_eq_true _ _).mpr ⟨hany, ?_⟩
        exact beq_iff_eq.mpr hval

/-- C2 witness: the amended join-masking behaviour on concrete rectangular
sources with extents `[1]` and `[2]`. -/
theorem c2_join_masking_witness :
    ∃ jo, join_files 0 [Arr.mk [1] [0], Arr.mk [2] [5, 6]] none = Except.ok jo ∧
      jo.numfiles = ([Arr.mk [1] [0], Arr.mk [2] [5, 6]] : List Arr).length ∧
      jo.timelen = find_max_time_size [Arr.mk [1] [0], Arr.mk [2] [5, 6]] ∧
      (∀ v ∈ [Arr.mk [1] [0], Arr.mk [2] [5, 6]], v.shape.headD 0 ≤ jo.timelen) ∧
      (∃ v ∈ [Arr.mk [1] [0], Arr.mk [2] [5, 6]], jo.timelen = v.shape.headD 0) ∧
      ((∀ v ∈ [Arr.mk [1] [0], Arr.mk [2] [5, 6]],
          v.shape.headD 0 = (Arr.mk [1] ([0] : List Int)).shape.headD 0) →
        jo.masked = false ∧ ∀ i t x, maskedAt 0 jo i t x = false) ∧
      ((∃ v ∈ [Arr.mk [1] [0], Arr.mk [2] [5, 6]],
          ∃ w ∈ [Arr.mk [1] [0], Arr.mk [2] [5, 6]], v.shape.headD 0 ≠ w.shape.headD 0) →
        jo.masked = true ∧
        (∀ i t x, i < jo.numfiles → t < jo.timelen →
          x < (Arr.mk [1] ([0] : List Int)).shape.tail.prod →
          (([Arr.mk [1] [0], Arr.mk [2] [5, 6]] : List Arr).getD i ⟨[], []⟩).shape.headD 0 ≤ t →
          maskedAt 0 jo i t x = true) ∧
        (∀ i t x, maskedAt 0 jo i t x = true ↔ joinValueAt jo i t x = 0)) :=
  c2_join_masking 0 (Arr.mk [1] [0]) [Arr.mk [2] [5, 6]] (by decide)

/-! ### Coordinate Cache and Moving-Domain Detector -/

/-- Modelled from the spec: the coordinate-cache module (`wrf/cache.py`,
imported at util.py 32 as `cache_item` / `get_cached_item`) is not among
the sources here.  Spec section 4.2 gives the contract
`get(token, product) -> value or absent`, `put(token, product, value)`,
no eviction, opaque caller-supplied tokens (modelled as naturals); a
`None` token disables caching (util.py 441-442 describes disabling
coordinate caching "by setting _key to None"). -/
abbrev CacheL (α : Type) : Type := List ((Nat × String) × α)

/-- Modelled from the spec: cache lookup, absent for a `None` token. -/
def get_cached_item {α : Type} (key : Option Nat) (product : String) (c : CacheL α) : Option α :=
  match key with
  | none => none
  | some k => (c.find? (fun e => e.1 == (k, product))).map (fun e => e.2)

/-- Modelled from the spec: cache store, a no-op for a `None` token. -/
def cache_item {α : Type} (key : Option Nat) (product : String) (value : α) (c : CacheL α) : CacheL α :=
  match key with
  | none => c
  | some k => ((k, product), value) :: c

/-- A 2-dimensional spatial grid (the last two axes of a coordinate
variable), as rows of values. -/
structure Grid where
  rows : List (List Int)
deriving DecidableEq

/-- Python `g[0, 0]`: the `[0, 0]` corner over the last two axes. -/
def corner00 (g : Grid) : Int := (g.rows.headD []).headD 0

/-- Python `g[-1, -1]`: the `[-1, -1]` corner over the last two axes. -/
def cornerLast (g : Grid) : Int := (g.rows.getLastD []).getLastD 0

/-- One file as the Moving-Domain Detector reads it: the per-time-slice
grids of the resolved latitude and longitude coordinate variables
(`wrfnc.variables[lat_coord]`, shape `(Time, y, x)`). -/
structure Source3 where
  lats : List Grid
  lons : List Grid
deriving DecidableEq

/-- The time-slice-`i` comparison inside `_corners_moved` (util.py
287-299): the slice's `[i, 0, 0]` and `[i, -1, -1]` lat/lon corners are
compared against the reference corners, in the source's comparison
order. -/
def cornerMismatch (s : Source3) (ll ur : Int × Int) (i : Nat) : Bool :=
  (corner00 (s.lats.getD i ⟨[]⟩) != ll.1) || (corner00 (s.lons.getD i ⟨[]⟩) != ll.2) ||
  (cornerLast (s.lats.getD i ⟨[]⟩) != ur.1) || (cornerLast (s.lons.getD i ⟨[]⟩) != ur.2)

/-- `_corners_moved` (util.py 282-302): every time slice of one file is
checked against the reference corners, true at the first mismatch. -/
def corners_moved (s : Source3) (ll ur : Int × Int) : Bool :=
  (List.range s.lats.length).any (cornerMismatch s ll ur)

/-- `is_moving_domain` (util.py 305-388) for an ordered sequence, the
lat/lon coordinate names already resolved (util.py 308-311, 332-346):
check the cache under the product key (349-352); on a miss take the first
source's time-slice-0 corners `lats[0,...,0]` and `lats[0,...,-1,-1]` as
the reference (358-371), walk the remaining sources with `_corners_moved`,
cache and return true at the first mismatch, otherwise cache and return
false after exhausting them (373-388).  An empty sequence is `none`
(`next(wrf_iter)` raises `StopIteration`). -/
def is_moving_domain (seq : List Source3) (latCoord lonCoord : String)
    (key : Option Nat) (c : CacheL Bool) : Option (Bool × CacheL Bool) :=
  match seq with
  | [] => none
  | first :: rest =>
    let product := "is_moving_" ++ latCoord ++ "_" ++ lonCoord
    match get_cached_item key product c with
    | some m => some (m, c)
    | none =>
      let lat0 := corner00 (first.lats.getD 0 ⟨[]⟩)
      let lon0 := corner00 (first.lons.getD 0 ⟨[]⟩)
      let lat1 := cornerLast (first.lats.getD 0 ⟨[]⟩)
      let lon1 := cornerLast (first.lons.getD 0 ⟨[]⟩)
      if rest.any (fun s => corners_moved s (lat0, lon0) (lat1, lon1)) then
        some (true, cache_item key product true c)
      else
        some (false, cache_item key product false c)

/-- util.py 314-316: a single file not wrapped in a sequence is wrapped
as `[wrfseq]` before the walk, so the walk has no remaining sources. -/
def is_moving_domain_single (s : Source3) (latCoord lonCoord : String)
    (key : Option Nat) (c : CacheL Bool) : Option (Bool × CacheL Bool) :=
  is_moving_domain [s] latCoord lonCoord key c

/-- The detector's walk condition, in propositional form. -/
theorem corners_any_iff (rest : List Source3) (ll ur : Int × Int) :
    (rest.any (fun s => corners_moved s ll ur) = true) ↔
    ∃ s ∈ rest, ∃ i, i < s.lats.length ∧
      (corner00 (s.lats.getD i ⟨[]⟩) ≠ ll.1 ∨ corner00 (s.lons.getD i ⟨[]⟩) ≠ ll.2 ∨
       cornerLast (s.lats.getD i ⟨[]⟩) ≠ ur.1 ∨ cornerLast (s.lons.getD i ⟨[]⟩) ≠ ur.2) := by
  simp only [List.any_eq_true, corners_moved, cornerMismatch, List.mem_range,
    Bool.or_eq_true, bne_iff_ne]
  constructor
  · rintro ⟨s, hs, i, hi, hmis⟩
    exact ⟨s, hs, i, hi, by tauto⟩
  · rintro ⟨s, hs, i, hi, hmis⟩
    exact ⟨s, hs, i, hi, by tauto⟩

/-- C3 counterexample to the claim as stated: source 0 has two time
slices whose corner values differ (so one source's corner values differ
within the collection), yet the detector returns false, because the
reference is only source 0's time-slice-0 corners and source 0's own
later slices are never compared. -/
theorem c3_moving_domain_counterexample :
    (is_moving_domain
        [Source3.mk [Grid.mk [[1]], Grid.mk [[2]]] [Grid.mk [[1]], Grid.mk [[2]]],
         Source3.mk [Grid.mk [[1]]] [Grid.mk [[1]]]]
        "XLAT" "XLONG" none []).map (fun r => r.1) = some false ∧
    corner00 ((Source3.mk [Grid.mk [[1]], Grid.mk [[2]]]
        [Grid.mk [[1]], Grid.mk [[2]]]).lats.getD 1 ⟨[]⟩) ≠
      corner00 ((Source3.mk [Grid.mk [[1]], Grid.mk [[2]]]
        [Grid.mk [[1]], Grid.mk [[2]]]).lats.getD 0 ⟨[]⟩) :=
  ⟨rfl, by decide⟩

/-- C3 (amended): Moving-Domain Detector correctness.  On a cache miss,
`is_moving_domain` takes the FIRST source's time-slice-0 grid corner
points (indices `[0,...,0]` and `[0,...,-1,-1]`) as the reference, walks
the remaining sources comparing every one of their time slices' corner
points against that reference, returns true at the first mismatch and
false after exhausting all sources, caching the result; hence it returns
false when every later source's slices match the first source's slice-0
corners — even if the first source's own later slices differ — and true
as soon as any time slice of any LATER source differs, regardless of that
source's position among the remaining sources. -/
theorem c3_moving_domain (first : Source3) (rest : List Source3)
    (latCoord lonCoord : String) (key : Option Nat) (c : CacheL Bool)
    (hmiss : get_cached_item key ("is_moving_" ++ latCoord ++ "_" ++ lonCoord) c = none) :
    ∃ b, is_moving_domain (first :: rest) latCoord lonCoord key c =
        some (b, cache_item key ("is_moving_" ++ latCoord ++ "_" ++ lonCoord) b c) ∧
      (b = true ↔ ∃ s ∈ rest, ∃ i, i < s.lats.length ∧
        (corner00 (s.lats.getD i ⟨[]⟩) ≠ corner00 (first.lats.getD 0 ⟨[]⟩) ∨
         corner00 (s.lons.getD i ⟨[]⟩) ≠ corner00 (first.lons.getD 0 ⟨[]⟩) ∨
         cornerLast (s.lats.getD i ⟨[]⟩) ≠ cornerLast (first.lats.getD 0 ⟨[]⟩) ∨
         cornerLast (s.lons.getD i ⟨[]⟩) ≠ cornerLast (first.lons.getD 0 ⟨[]⟩))) := by
  by_cases hA : rest.any (fun s => corners_moved s
      (corner00 (first.lats.getD 0 ⟨[]⟩), corner00 (first.lons.getD 0 ⟨[]⟩))
      (cornerLast (first.lats.getD 0 ⟨[]⟩), cornerLast (first.lons.getD 0 ⟨[]⟩))) = true
  · refine ⟨true, ?_, ?_⟩
    · simp only [is_moving_domain, hmiss, hA, if_true]
    · simp only [true_iff]
      exact (corners_any_iff rest _ _).mp hA
  · have hA' : rest.any (fun s => corners_moved s
        (corner00 (first.lats.getD 0 ⟨[]⟩), corner00 (first.lons.getD 0 ⟨[]⟩))
        (cornerLast (first.lats.getD 0 ⟨[]⟩), cornerLast (first.lons.getD 0 ⟨[]⟩))) = false := by
      simpa using hA
    refine ⟨false, ?_, ?_⟩
    · simp only [is_moving_domain, hmiss, hA', Bool.false_eq_true, if_false]
    · simp only [Bool.false_eq_true, false_iff]
      intro hex
      exact hA ((corners_any_iff rest _ _).mpr hex)

/-- C3 witness: the amended detector behaviour on the concrete collection
of the counterexample, starting from an empty cache. -/
theorem c3_moving_domain_witness :
    ∃ b, is_moving_domain
        [Source3.mk [Grid.mk [[1]], Grid.mk [[2]]] [Grid.mk [[1]], Grid.mk [[2]]],
         Source3.mk [Grid.mk [[1]]] [Grid.mk [[1]]]] "XLAT" "XLONG" none [] =
        some (b, cache_item none ("is_moving_" ++ "XLAT" ++ "_" ++ "XLONG") b []) ∧
      (b = true ↔ ∃ s ∈ [Source3.mk [Grid.mk [[1]]] [Grid.mk [[1]]]], ∃ i, i < s.lats.length ∧
        (corner00 (s.lats.getD i ⟨[]⟩) ≠
            corner00 ((Source3.mk [Grid.mk [[1]], Grid.mk [[2]]]
              [Grid.mk [[1]], Grid.mk [[2]]]).lats.getD 0 ⟨[]⟩) ∨
         corner00 (s.lons.getD i ⟨[]⟩) ≠
            corner00 ((Source3.mk [Grid.mk [[1]], Grid.mk [[2]]]
              [Grid.mk [[1]], Grid.mk [[2]]]).lons.getD 0 ⟨[]⟩) ∨
         cornerLast (s.lats.getD i ⟨[]⟩) ≠
            cornerLast ((Source3.mk [Grid.mk [[1]], Grid.mk [[2]]]
              [Grid.mk [[1]], Grid.mk [[2]]]).lats.getD 0 ⟨[]⟩) ∨
         cornerLast (s.lons.getD i ⟨[]⟩) ≠
            cornerLast ((Source3.mk [Grid.mk [[1]], Grid.mk [[2]]]
              [Grid.mk [[1]], Grid.mk [[2]]]).lons.getD 0 ⟨[]⟩))) :=
  c3_moving_domain (Source3.mk [Grid.mk [[1]], Grid.mk [[2]]] [Grid.mk [[1]], Grid.mk [[2]]])
    [Source3.mk [Grid.mk [[1]]] [Grid.mk [[1]]]] "XLAT" "XLONG" none [] rfl

/-- C10: implicit single-source behaviour of the Moving-Domain Detector.
A single source passed directly is wrapped as a one-element sequence, so
the walk over the remaining sources is empty: on a cache miss the
detector returns false and caches false under the token, regardless of
the source's latitude/longitude contents — corner points of different
time slices within the one file are never compared with each other. -/
theorem c10_single_source_static (s : Source3) (latCoord lonCoord : String)
    (key : Option Nat) (c : CacheL Bool)
    (hmiss : get_cached_item key ("is_moving_" ++ latCoord ++ "_" ++ lonCoord) c = none) :
    is_moving_domain_single s latCoord lonCoord key c =
      some (false, cache_item key ("is_moving_" ++ latCoord ++ "_" ++ lonCoord) false c) ∧
    (∀ k, key = some k →
      get_cached_item key ("is_moving_" ++ latCoord ++ "_" ++ lonCoord)
        (cache_item key ("is_moving_" ++ latCoord ++ "_" ++ lonCoord) false c) = some false) := by
  constructor
  · simp only [is_moving_domain_single, is_moving_domain, hmiss, List.any_nil,
      Bool.false_eq_true, if_false]
  · intro k hk
    subst hk
    simp [get_cached_item, cache_item, List.find?]

/-- C10 witness: a concrete single source whose two time slices have
different corner values is still reported static, and false is cached
under the concrete token. -/
theorem c10_single_source_static_witness :
    is_moving_domain_single
        (Source3.mk [Grid.mk [[1]], Grid.mk [[2]]] [Grid.mk [[1]], Grid.mk [[2]]])
        "XLAT" "XLONG" (some 3) [] =
      some (false, cache_item (some 3) ("is_moving_" ++ "XLAT" ++ "_" ++ "XLONG") false []) ∧
    (∀ k, (some 3 : Option Nat) = some k →
      get_cached_item (some 3) ("is_moving_" ++ "XLAT" ++ "_" ++ "XLONG")
        (cache_item (some 3) ("is_moving_" ++ "XLAT" ++ "_" ++ "XLONG") false []) = some false) :=
  c10_single_source_static
    (Source3.mk [Grid.mk [[1]], Grid.mk [[2]]] [Grid.mk [[1]], Grid.mk [[2]]])
    "XLAT" "XLONG" (some 3) [] rfl

/-! ### Dict Combiner caching frame (C9) -/

/-- A cache entry written under one token skips lookups for a different
product under the same token. -/
theorem get_cached_item_cons_ne {α : Type} (k : Nat) (p q : String) (v : α) (c : CacheL α)
    (hne : (p == q) = false) :
    get_cached_item (some k) q (((k, p), v) :: c) = get_cached_item (some k) q c := by
  have hkey : (((k, p) : Nat × String) == (k, q)) = false := by
    show (k == k && (p == q)) = false
    rw [hne, Bool.and_false]
  simp only [get_cached_item, List.find?, hkey]

/-- The coordinate payloads one file contributes to the cache: the
dimension tuples and raw grids read at util.py 633-635 and 646-648, as
opaque values. -/
structure CSource where
  lonDims : Int
  lonVals : Int
  latDims : Int
  latVals : Int
deriving DecidableEq

/-- The coordinate-cache effect of `_build_data_array` (util.py 622-654):
on a cache miss for the lon (then the lat) coordinate the dims and values
are read from the file and, only when the domain is not moving, both are
written to the cache under the key that was passed in (lines 630-641 and
643-654).  The analogous `XTIME` caching of lines 656-669 is independent
of the claim and omitted. -/
def build_data_array_coord_cache (s : CSource) (lonCoord latCoord : String)
    (is_moving : Bool) (key : Option Nat) (c : CacheL Int) : CacheL Int :=
  let c1 :=
    match get_cached_item key (lonCoord ++ "_dim") c,
        get_cached_item key (lonCoord ++ "_val") c with
    | some _, some _ => c
    | _, _ =>
      if is_moving then c
      else cache_item key (lonCoord ++ "_val") s.lonVals
        (cache_item key (lonCoord ++ "_dim") s.lonDims c)
  match get_cached_item key (latCoord ++ "_dim") c1,
      get_cached_item key (latCoord ++ "_val") c1 with
  | some _, some _ => c1
  | _, _ =>
    if is_moving then c1
    else cache_item key (latCoord ++ "_val") s.latVals
      (cache_item key (latCoord ++ "_dim") s.latDims c1)

/-- The moving-flag handling of `_extract_var` (util.py 1283-1284) for
one dictionary entry, together with the coordinate-cache effect of
building its array: when the flag passed down is `None` the detector is
invoked (one call, result `detect`); otherwise the passed flag is used
and the detector is not consulted.  Returns (detector calls, flag used,
cache after the entry). -/
def extract_var_entry (s : CSource) (lonCoord latCoord : String)
    (is_moving : Option Bool) (detect : Bool) (key : Option Nat) (c : CacheL Int) :
    Nat × Bool × CacheL Int :=
  match is_moving with
  | some b => (0, b, build_data_array_coord_cache s lonCoord latCoord b key c)
  | none => (1, detect, build_data_array_coord_cache s lonCoord latCoord detect key c)

/-- The caching frame of `_combine_dict` (util.py 429-472): the
moving-domain detector runs once for the whole mapping (line 439) and
every entry is extracted with that flag (`is_moving=is_moving`) and with
the entry's own sub-token `_key[key]` of the mapping token (lines 443-446
and 463-466) — the key passed down is not `None`.  Returns (detector
calls, flags passed to the entries, final cache). -/
def combine_dict_coord_cache (entries : List (String × CSource))
    (lonCoord latCoord : String) (subkey : String → Option Nat)
    (dict_moving : Bool) (c : CacheL Int) : Nat × List Bool × CacheL Int :=
  entries.foldl
    (fun acc e =>
      have r := extract_var_entry e.2 lonCoord latCoord (some dict_moving) false
        (subkey e.1) acc.2.2
      (acc.1 + r.1, acc.2.1 ++ [r.2.1], r.2.2))
    (1, [], c)

/-- The dict-combiner fold never invokes the detector again and hands the
single computed flag to every entry. -/
theorem combine_dict_coord_cache_fold (lonCoord latCoord : String)
    (subkey : String → Option Nat) (flag : Bool) :
    ∀ (entries : List (String × CSource)) (n : Nat) (fl0 : List Bool) (c : CacheL Int),
    (entries.foldl
      (fun acc e =>
        have r := extract_var_entry e.2 lonCoord latCoord (some flag) false
          (subkey e.1) acc.2.2
        (acc.1 + r.1, acc.2.1 ++ [r.2.1], r.2.2))
      (n, fl0, c)).1 = n ∧
    (entries.foldl
      (fun acc e =>
        have r := extract_var_entry e.2 lonCoord latCoord (some flag) false
          (subkey e.1) acc.2.2
        (acc.1 + r.1, acc.2.1 ++ [r.2.1], r.2.2))
      (n, fl0, c)).2.1 = fl0 ++ entries.map (fun _ => flag) := by
  intro entries
  induction entries with
  | nil => intro n fl0 c; exact ⟨rfl, by simp⟩
  | cons e rest ih =>
    intro n fl0 c
    obtain ⟨ih1, ih2⟩ := ih n (fl0 ++ [flag])
      (build_data_array_coord_cache e.2 lonCoord latCoord flag (subkey e.1) c)
    refine ⟨?_, ?_⟩
    · rw [List.foldl_cons]
      exact ih1
    · rw [List.foldl_cons, List.map_cons]
      have h2 := ih2
      rw [List.append_assoc, List.singleton_append] at h2
      exact h2

/-- C9 counterexample to the claim as stated: combining a concrete
single-entry mapping over a static domain writes the entry's lon/lat
coordinate dims and values into the coordinate cache under the entry's
sub-token — per-entry coordinate caching is not disabled. -/
theorem c9_dict_caching_counterexample :
    get_cached_item (some 1) ("XLONG" ++ "_dim")
      (combine_dict_coord_cache [("a", CSource.mk 10 11 12 13)] "XLONG" "XLAT"
        (fun _ => some 1) false []).2.2 = some 10 ∧
    (combine_dict_coord_cache [("a", CSource.mk 10 11 12 13)] "XLONG" "XLAT"
      (fun _ => some 1) false []).2.2 ≠ [] :=
  ⟨rfl, by decide⟩

/-- C9 (amended): while combining a mapping, moving-domain detection runs
exactly once for the whole mapping and the resulting flag is handed to
every entry's extraction; the per-request extracted-variable cache is
disabled for the entries (`cache=None`), but per-entry coordinate caching
is NOT disabled: each entry is extracted with its own sub-token of the
mapping token, and a static-domain entry with cache misses writes its
lon/lat coordinate dims and values into the coordinate cache under that
sub-token. -/
theorem c9_dict_caching (entries : List (String × CSource)) (lonCoord latCoord : String)
    (subkey : String → Option Nat) (flag : Bool) (c : CacheL Int)
    (name : String) (s : CSource) (k : Nat) (c0 : CacheL Int)
    (h1 : get_cached_item (some k) (lonCoord ++ "_dim") c0 = none)
    (h2 : get_cached_item (some k) (lonCoord ++ "_val") c0 = none)
    (h3 : get_cached_item (some k) (latCoord ++ "_dim") c0 = none)
    (h4 : get_cached_item (some k) (latCoord ++ "_val") c0 = none)
    (hd1 : (lonCoord ++ "_val" == latCoord ++ "_dim") = false)
    (hd2 : (lonCoord ++ "_dim" == latCoord ++ "_dim") = false)
    (hd3 : (lonCoord ++ "_val" == latCoord ++ "_val") = false)
    (hd4 : (lonCoord ++ "_dim" == latCoord ++ "_val") = false)
    (hsub : subkey name = some k) :
    (combine_dict_coord_cache entries lonCoord latCoord subkey flag c).1 = 1 ∧
    (combine_dict_coord_cache entries lonCoord latCoord subkey flag c).2.1 =
      entries.map (fun _ => flag) ∧
    (combine_dict_coord_cache [(name, s)] lonCoord latCoord subkey false c0).2.2 =
      cache_item (some k) (latCoord ++ "_val") s.latVals
        (cache_item (some k) (latCoord ++ "_dim") s.latDims
          (cache_item (some k) (lonCoord ++ "_val") s.lonVals
            (cache_item (some k) (lonCoord ++ "_dim") s.lonDims c0))) := by
  refine ⟨(combine_dict_coord_cache_fold lonCoord latCoord subkey flag entries 1 [] c).1,
    by simpa using (combine_dict_coord_cache_fold lonCoord latCoord subkey flag entries 1 [] c).2,
    ?_⟩
  show (build_data_array_coord_cache s lonCoord latCoord false (subkey name) c0) = _
  rw [hsub]
  have hlat_dim : get_cached_item (some k) (latCoord ++ "_dim")
      (cache_item (some k) (lonCoord ++ "_val") s.lonVals
        (cache_item (some k) (lonCoord ++ "_dim") s.lonDims c0)) = none := by
    show get_cached_item (some k) (latCoord ++ "_dim")
      (((k, lonCoord ++ "_val"), s.lonVals) :: ((k, lonCoord ++ "_dim"), s.lonDims) :: c0) = none
    rw [get_cached_item_cons_ne k _ _ _ _ hd1, get_cached_item_cons_ne k _ _ _ _ hd2, h3]
  have hlat_val : get_cached_item (some k) (latCoord ++ "_val")
      (cache_item (some k) (lonCoord ++ "_val") s.lonVals
        (cache_item (some k) (lonCoord ++ "_dim") s.lonDims c0)) = none := by
    show get_cached_item (some k) (latCoord ++ "_val")
      (((k, lonCoord ++ "_val"), s.lonVals) :: ((k, lonCoord ++ "_dim"), s.lonDims) :: c0) = none
    rw [get_cached_item_cons_ne k _ _ _ _ hd3, get_cached_item_cons_ne k _ _ _ _ hd4, h4]
  simp [build_data_array_coord_cache, h1, h2, hlat_dim, hlat_val]

/-- C9 witness: the amended dict-caching behaviour on a concrete
single-entry mapping, starting from an empty coordinate cache. -/
theorem c9_dict_caching_witness :
    (combine_dict_coord_cache [("a", CSource.mk 10 11 12 13)] "XLONG" "XLAT"
      (fun _ => some 1) false []).1 = 1 ∧
    (combine_dict_coord_cache [("a", CSource.mk 10 11 12 13)] "XLONG" "XLAT"
      (fun _ => some 1) false []).2.1 =
      ([("a", CSource.mk 10 11 12 13)] : List (String × CSource)).map (fun _ => false) ∧
    (combine_dict_coord_cache [("a", CSource.mk 10 11 12 13)] "XLONG" "XLAT"
      (fun _ => some 1) false []).2.2 =
      cache_item (some 1) ("XLAT" ++ "_val") (CSource.mk 10 11 12 13).latVals
        (cache_item (some 1) ("XLAT" ++ "_dim") (CSource.mk 10 11 12 13).latDims
          (cache_item (some 1) ("XLONG" ++ "_val") (CSource.mk 10 11 12 13).lonVals
            (cache_item (some 1) ("XLONG" ++ "_dim") (CSource.mk 10 11 12 13).lonDims []))) :=
  c9_dict_caching [("a", CSource.mk 10 11 12 13)] "XLONG" "XLAT" (fun _ => some 1) false []
    "a" (CSource.mk 10 11 12 13) 1 [] rfl rfl rfl rfl (by decide) (by decide) (by decide)
    (by decide) rfl

/-! ### Sequence Normalizer generator re-iteration (C4) -/

/-- A Python module object for attribute access: its namespace maps the
names defined in the module to the module's generator functions (a
generator function modelled by its restart behaviour: keyword arguments
to the produced element sequence). -/
structure PyModule where
  names : List (String × (List (String × Int) → List Int))

/-- Python attribute access `module.attr`: a lookup in the module
namespace; a missing name raises `AttributeError` (module objects expose
only the names defined in them). -/
def module_attr (m : PyModule) (attr : String) :
    Except String (List (String × Int) → List Int) :=
  match m.names.find? (fun e => e.1 == attr) with
  | some e => Except.ok e.2
  | none => Except.error ("module object has no attribute " ++ attr)

/-- `_generator_copy` (util.py 82-97), module-resolvable case: the origin
module of the generator frame is located (line 88, not `None`) and line
91 evaluates `module.get(funcname)(**argvals.locals)`.  Its first step —
modelled here — is the attribute fetch `module.get` on the module object;
only its result would then be called with `funcname` and the captured
locals, so nothing further runs when the fetch raises. -/
def generator_copy_restart (m : PyModule) (funcname : String) :
    Except String (List (String × Int) → List Int) :=
  have _ := funcname
  module_attr m "get"

/-- C4: the generator-restart path of the Sequence Normalizer raises.
For a generator defined at module level (like `test` in util.py 99-102),
the module namespace contains the generator function but no name `get`,
so `module.get(funcname)` raises `AttributeError` and no restarted
generator is ever produced — the returned view cannot be iterated a
second time, contradicting `IterWrapper`'s own docstring
(util.py 144-145). -/
theorem c4_generator_copy_attribute_error (body : List (String × Int) → List Int) :
    generator_copy_restart (PyModule.mk [("test", body)]) "test" =
      Except.error ("module object has no attribute " ++ "get") ∧
    (∀ f, generator_copy_restart (PyModule.mk [("test", body)]) "test" ≠ Except.ok f) := by
  refine ⟨rfl, ?_⟩
  intro f h
  rw [(rfl : generator_copy_restart (PyModule.mk [("test", body)]) "test" =
    Except.error ("module object has no attribute " ++ "get"))] at h
  exact Except.noConfusion h

/-- C4 witness: the failing restart evaluated at a concrete generator
body. -/
theorem c4_generator_copy_attribute_error_witness :
    generator_copy_restart (PyModule.mk [("test", fun _ => [1, 2, 3])]) "test" =
      Except.error ("module object has no attribute " ++ "get") ∧
    (∀ f, generator_copy_restart (PyModule.mk [("test", fun _ => [1, 2, 3])]) "test" ≠
      Except.ok f) :=
  c4_generator_copy_attribute_error (fun _ => [1, 2, 3])

end Wrf
